import Mathlib

/-
Shallow embedding of the lib-manager lending ledger.

The operations below are translated from `src/backend/db.py` (classes
`MongoRepo` and `SQLiteRepo`; in a sequential execution the two backends
perform the same reads and writes, and the record ids are primary keys /
unique-indexed in both stores).  The validation fragments referred to by
the admission-code claim come from `src/backend/server.py` (`StudentIn`)
and `src/backend_flask/app.py` (`create_student`).

Modelling conventions:
  * Timestamps are integer seconds (UTC).  A stored date *string* is
    modelled by its parse result: `some t` when `datetime.fromisoformat`
    succeeds and denotes instant `t`, `none` when parsing raises.
  * `datetime.now(timezone.utc)` and `uuid4()` are passed in as explicit
    `now` / `newId` arguments.
  * Python `(now - borrow_dt).days` is the floor of the difference in
    whole days (`timedelta` normalises its fields), i.e. `Int.fdiv`.
  * Each mutating operation returns `Except Err α × DB`: the result (or
    typed failure, from the `raise` statements) together with the store
    after the operation.  In the source every `raise` happens before any
    write, so on failure the store component is the input store.
  * Pagination is backend-specific, so the two `list_borrows`
    implementations are embedded separately.  SQLite: `LIMIT n` with
    `n < 0` means "no limit", `LIMIT 0` returns no rows, a negative
    `OFFSET` behaves like `0`, and `OFFSET` is applied to the sorted rows
    before `LIMIT` counts.  MongoDB (pymongo cursors): `limit(0)` means
    "no limit", `limit(n)` with `n < 0` returns at most `|n|` documents
    (a single batch), and `skip(n)` raises `ValueError` for `n < 0`;
    the server applies sort, then skip, then limit.
-/

deriving instance DecidableEq for Except

namespace LibManager

/-- Seconds in a day; Python `timedelta(days=7)` is `7 * secondsPerDay`. -/
def secondsPerDay : Int := 86400

/-- `timedelta(days=7)` added to a timestamp measured in seconds. -/
def sevenDays : Int := 7 * secondsPerDay

/-- Python `(now - borrow_dt).days`: `timedelta` is normalised so that
`.days` is the floor of the signed difference in whole days. -/
def elapsedDays (borrow_dt now : Int) : Int := Int.fdiv (now - borrow_dt) secondsPerDay

/-- A row/document of the `students` store (fields used by the claims). -/
structure Student where
  sid : String
  admission_number : String
  warnings : Nat
deriving Repr, DecidableEq

/-- A row/document of the `books` store. -/
structure Book where
  bid : String
  sbin : Option String
  stamp : Option String
  available : Bool
deriving Repr, DecidableEq

/-- A row/document of the `borrows` store.  `borrow_date`/`due_date`/
`return_date` are the parse results of the stored strings (`none` for a
missing `due_date`/`return_date`, and for an unparseable `borrow_date`). -/
structure Borrow where
  brid : String
  student_id : String
  book_id : String
  borrow_date : Option Int
  due_date : Option Int
  return_date : Option Int
  returned : Bool
deriving Repr, DecidableEq

/-- The whole store (the three collections/tables). -/
structure DB where
  students : List Student
  books : List Book
  borrows : List Borrow
deriving Repr, DecidableEq

/-- The typed failures raised by the repository layer
(`KeyError("NOT_FOUND")` and the `ValueError` business-rule conflicts),
plus the `ValueError` pymongo's `cursor.skip` raises for a negative
argument. -/
inductive Err where
  | notFoundStudent
  | notFoundBook
  | notFound
  | bookNotAvailable
  | noActiveBorrow
  | studentActiveBorrow
  | bookActiveBorrow
  | invalidSkip
deriving Repr, DecidableEq

/-- `get_student`: `find_one({"id": student_id})` / `SELECT * FROM students
WHERE id=?`. -/
def get_student (db : DB) (student_id : String) : Option Student :=
  db.students.find? (fun s => s.sid == student_id)

/-- `get_book_by_code`: `find_one({"$or": [{"sbin": code}, {"stamp": code}]})`
/ `SELECT * FROM books WHERE sbin=? OR stamp=?` (a NULL code never matches). -/
def get_book_by_code (db : DB) (code : String) : Option Book :=
  db.books.find? (fun b => b.sbin == some code || b.stamp == some code)

/-- `find_one({"book_id": ..., "returned": False})` / `SELECT * FROM borrows
WHERE book_id=? AND returned=0`. -/
def find_open_borrow (db : DB) (book_id : String) : Option Borrow :=
  db.borrows.find? (fun br => br.book_id == book_id && !br.returned)

/-- The active-borrow existence check used by `delete_book`. -/
def has_open_for_book (db : DB) (book_id : String) : Bool :=
  db.borrows.any (fun br => br.book_id == book_id && !br.returned)

/-- The active-borrow existence check used by `delete_student`. -/
def has_open_for_student (db : DB) (student_id : String) : Bool :=
  db.borrows.any (fun br => br.student_id == student_id && !br.returned)

/-- The borrow document built by a successful `borrow_book` (`db.py` lines
216-223 / 502-509): `borrow_date = now`, `due_date = now + 7 days`,
`returned = False`. -/
def new_borrow (s : Student) (b : Book) (now : Int) (nid : String) : Borrow :=
  { brid := nid
    student_id := s.sid
    book_id := b.bid
    borrow_date := some now
    due_date := some (now + sevenDays)
    return_date := none
    returned := false }

/-- The store after a successful `borrow_book`: the resolved book is
flipped to unavailable (guarded update by id) and the new borrow is
inserted. -/
def after_borrow (db : DB) (b : Book) (doc : Borrow) : DB :=
  { db with
    books := db.books.map (fun bk => if bk.bid == b.bid then { bk with available := false } else bk)
    borrows := db.borrows ++ [doc] }

/-- `MongoRepo.borrow_book` / `SQLiteRepo.borrow_book`: resolve the student,
resolve the book by code, guard on availability (atomic check-and-flip),
flip the book to unavailable and insert the new borrow record. -/
def borrow_book (db : DB) (student_id book_code : String) (now : Int) (newId : String) :
    Except Err Borrow × DB :=
  match get_student db student_id with
  | none => (.error .notFoundStudent, db)
  | some student =>
    match get_book_by_code db book_code with
    | none => (.error .notFoundBook, db)
    | some book =>
      if !book.available then (.error .bookNotAvailable, db)
      else
        let doc := new_borrow student book now newId
        (.ok doc, after_borrow db book doc)

/-- The write `UPDATE borrows SET returned=1, return_date=? WHERE id=?`. -/
def mark_returned (rid : String) (now : Int) (br : Borrow) : Borrow :=
  if br.brid == rid then { br with returned := true, return_date := some now } else br

/-- The borrow instant `return_book` works with: the parsed stored date,
falling back to `now` when `datetime.fromisoformat` raises (`db.py` lines
235-238 / 527-530). -/
def borrow_dt_of (br : Borrow) (now : Int) : Int :=
  match br.borrow_date with
  | some t => t
  | none => now

/-- The record served by a successful `return_book`: marked returned with
`return_date = now`, and a missing `due_date` backfilled as
`borrow_dt + 7 days` on the served object only. -/
def returned_borrow (br : Borrow) (now : Int) : Borrow :=
  { br with
    due_date :=
      match br.due_date with
      | some d => some d
      | none => some (borrow_dt_of br now + sevenDays)
    returned := true
    return_date := some now }

/-- The store after a successful `return_book` of book `b` whose open
borrow is `br`: the borrow row is marked returned, the book is made
available again, and the student's warning counter is incremented exactly
when `(now - borrow_dt).days > 7`. -/
def after_return (db : DB) (b : Book) (br : Borrow) (now : Int) : DB :=
  { db with
    borrows := db.borrows.map (mark_returned br.brid now)
    books := db.books.map (fun bk => if bk.bid == b.bid then { bk with available := true } else bk)
    students :=
      if elapsedDays (borrow_dt_of br now) now > 7 then
        db.students.map (fun s =>
          if s.sid == br.student_id then { s with warnings := s.warnings + 1 } else s)
      else db.students }

/-- `MongoRepo.return_book` / `SQLiteRepo.return_book`: resolve the book by
code, find the open borrow, then perform the return writes and serve the
updated record. -/
def return_book (db : DB) (book_code : String) (now : Int) : Except Err Borrow × DB :=
  match get_book_by_code db book_code with
  | none => (.error .notFoundBook, db)
  | some book =>
    match find_open_borrow db book.bid with
    | none => (.error .noActiveBorrow, db)
    | some borrow => (.ok (returned_borrow borrow now), after_return db book borrow now)

/-- `delete_student`: conflict when an open borrow references the student
(checked first, so it takes precedence over `NOT_FOUND`), then delete and
report `NOT_FOUND` when no row was deleted. -/
def delete_student (db : DB) (student_id : String) : Except Err Bool × DB :=
  if has_open_for_student db student_id then (.error .studentActiveBorrow, db)
  else if db.students.any (fun s => s.sid == student_id) then
    (.ok true, { db with students := db.students.filter (fun s => !(s.sid == student_id)) })
  else (.error .notFound, db)

/-- `delete_book`: same shape as `delete_student`. -/
def delete_book (db : DB) (book_id : String) : Except Err Bool × DB :=
  if has_open_for_book db book_id then (.error .bookActiveBorrow, db)
  else if db.books.any (fun b => b.bid == book_id) then
    (.ok true, { db with books := db.books.filter (fun b => !(b.bid == book_id)) })
  else (.error .notFound, db)

/-- The read-side backfill of `list_borrows` (and `return_book`): when the
stored `due_date` is missing and `borrow_date` parses, the served record
gets `due_date = borrow_date + 7 days`; the store is not rewritten. -/
def backfill_due (br : Borrow) : Borrow :=
  match br.due_date, br.borrow_date with
  | none, some bd => { br with due_date := some (bd + sevenDays) }
  | _, _ => br

/-- Sort key for `ORDER BY borrow_date`; on records whose stored date
parses it is the timestamp itself. -/
def date_key (br : Borrow) : Int :=
  match br.borrow_date with
  | some t => t
  | none => 0

/-- Insertion step of the descending sort. -/
def insert_desc (a : Borrow) : List Borrow → List Borrow
  | [] => [a]
  | b :: rest => if date_key b ≤ date_key a then a :: b :: rest else b :: insert_desc a rest

/-- `ORDER BY borrow_date DESC` as an insertion sort. -/
def sort_desc : List Borrow → List Borrow
  | [] => []
  | a :: rest => insert_desc a (sort_desc rest)

/-- `WHERE returned=0` / `{"returned": False}`. -/
def open_only (l : List Borrow) : List Borrow := l.filter (fun br => !br.returned)

/-- SQLite `LIMIT min(limit, 100)`: SQLite treats a negative LIMIT operand
as "no limit" (`LIMIT 0` returns no rows), and the Python code's
`min(limit, 100)` leaves a negative requested limit negative. -/
def sqlite_limit (limit : Int) (l : List Borrow) : List Borrow :=
  let n := min limit 100
  if n < 0 then l else l.take n.toNat

/-- MongoDB `cursor.limit(min(limit, 100))`: `limit(0)` means "no limit",
and a negative argument returns at most that many documents (the server
sends a single batch of at most `|n|` documents). -/
def mongo_limit (limit : Int) (l : List Borrow) : List Borrow :=
  let n := min limit 100
  if n = 0 then l else l.take n.natAbs

/-- `SQLiteRepo.list_borrows` (db.py lines 541-553): optional active-only
filter, sort by `borrow_date` descending, `OFFSET skip` (a negative
offset behaves like 0, as `Int.toNat` maps negatives to 0), `LIMIT
min(limit,100)`, then backfill `due_date` on the served page.  The
operation performs no writes and raises nothing. -/
def sqlite_list_borrows (db : DB) (active : Bool) (limit skip : Int) : List Borrow :=
  let base := if active then open_only db.borrows else db.borrows
  let page := sqlite_limit limit ((sort_desc base).drop skip.toNat)
  page.map backfill_due

/-- `MongoRepo.list_borrows` (db.py lines 245-257): optional active-only
filter, sort by `borrow_date` descending, `skip(skip)` — pymongo raises
`ValueError` for a negative skip — then `limit(min(limit, 100))` with
MongoDB's limit semantics, then backfill `due_date` on the served page.
No writes are performed. -/
def mongo_list_borrows (db : DB) (active : Bool) (limit skip : Int) :
    Except Err (List Borrow) :=
  if skip < 0 then .error .invalidSkip
  else
    let base := if active then open_only db.borrows else db.borrows
    let page := mongo_limit limit ((sort_desc base).drop skip.toNat)
    .ok (page.map backfill_due)

/-- The availability invariant exactly as the claim states it:
`available` iff no borrow of this book is open. -/
def avail_inv (db : DB) : Prop :=
  ∀ b ∈ db.books, b.available = !has_open_for_book db b.bid

/-- At most one open borrow per book: any two distinct open-borrow entries
reference different books. -/
def at_most_one_open (db : DB) : Prop :=
  (open_only db.borrows).Pairwise (fun a b => a.book_id ≠ b.book_id)

/-- Borrow ids are pairwise distinct — the `borrows.id` unique index /
PRIMARY KEY that both stores declare. -/
def borrow_ids_nodup (db : DB) : Prop := (db.borrows.map Borrow.brid).Nodup

/-- The strengthened ledger invariant. -/
def ledger_inv (db : DB) : Prop := avail_inv db ∧ at_most_one_open db

instance (db : DB) : Decidable (avail_inv db) := by
  unfold avail_inv; infer_instance

instance (db : DB) : Decidable (at_most_one_open db) := by
  unfold at_most_one_open; infer_instance

instance (db : DB) : Decidable (borrow_ids_nodup db) := by
  unfold borrow_ids_nodup; infer_instance

instance (db : DB) : Decidable (ledger_inv db) := by
  unfold ledger_inv; infer_instance

/-- Admission-number constraint of `StudentIn` in `src/backend/server.py`
(lines 46-49): `Field(..., min_length=1, max_length=50)`. -/
def server_admission_ok (adm : String) : Bool :=
  1 ≤ adm.length && adm.length ≤ 50

/-- Python `str.strip()` on the character list: drop whitespace from both
ends. -/
def strip_chars (s : String) : List Char :=
  ((s.data.dropWhile (fun c => c.isWhitespace)).reverse.dropWhile (fun c => c.isWhitespace)).reverse

/-- Admission-number check of `create_student` in
`src/backend_flask/app.py` (lines 96-102): strip, then require length 6. -/
def flask_admission_ok (adm : String) : Bool :=
  (strip_chars adm).length == 6

/-- Due-date computed at borrow time by `MongoRepo.borrow_book`
(line 215): `borrow_date + timedelta(days=7)`. -/
def mongo_borrow_due (now : Int) : Int := now + sevenDays

/-- Due-date computed at borrow time by `SQLiteRepo.borrow_book`
(line 501): `borrow_date + timedelta(days=7)`. -/
def sqlite_borrow_due (now : Int) : Int := now + sevenDays

/-- The borrow instant `MongoRepo.return_book` works with (lines 235-238):
the parsed stored date, falling back to `now` when parsing raises. -/
def mongo_borrow_dt (parsed : Option Int) (now : Int) : Int :=
  match parsed with
  | some t => t
  | none => now

/-- Same fallback in `SQLiteRepo.return_book` (lines 527-530). -/
def sqlite_borrow_dt (parsed : Option Int) (now : Int) : Int :=
  match parsed with
  | some t => t
  | none => now

/-- Warning decision of `MongoRepo.return_book` (line 239):
`(now - borrow_dt).days > 7`. -/
def mongo_warns (parsed : Option Int) (now : Int) : Bool :=
  elapsedDays (mongo_borrow_dt parsed now) now > 7

/-- Warning decision of `SQLiteRepo.return_book` (line 531). -/
def sqlite_warns (parsed : Option Int) (now : Int) : Bool :=
  elapsedDays (sqlite_borrow_dt parsed now) now > 7

/-- Due-date backfill of `MongoRepo.return_book` (line 242):
`borrow_dt + timedelta(days=7)`. -/
def mongo_return_due (parsed : Option Int) (now : Int) : Int :=
  mongo_borrow_dt parsed now + sevenDays

/-- Due-date backfill of `SQLiteRepo.return_book` (line 536). -/
def sqlite_return_due (parsed : Option Int) (now : Int) : Int :=
  sqlite_borrow_dt parsed now + sevenDays

/-! Concrete states used to exercise the operations. -/

/-- A student record used by the concrete states. -/
def stA : Student := { sid := "s1", admission_number := "ABC123", warnings := 0 }

/-- An unavailable book with code `"c1"`. -/
def bkUnavail : Book := { bid := "b1", sbin := some "c1", stamp := none, available := false }

/-- An open borrow of book `b1` by student `s1`. -/
def brOpen1 : Borrow :=
  { brid := "r1", student_id := "s1", book_id := "b1"
    borrow_date := some 0, due_date := some 604800, return_date := none, returned := false }

/-- A second open borrow of the same book (distinct id). -/
def brOpen2 : Borrow := { brOpen1 with brid := "r2" }

/-- A state satisfying the claim's availability iff-invariant in which two
open borrows reference the same (unavailable) book. -/
def cex1DB : DB := { students := [stA], books := [bkUnavail], borrows := [brOpen1, brOpen2] }

/-- A single open borrow, 101 copies of which overflow the page cap when
the requested limit is negative. -/
def cex5DB : DB := { students := [], books := [], borrows := List.replicate 101 brOpen1 }

/-- An available book with code `"c2"`. -/
def bkAvail : Book := { bid := "b2", sbin := some "c2", stamp := none, available := true }

/-- A well-formed ledger state: one student, one available book, no
borrows. -/
def cleanDB : DB := { students := [stA], books := [bkAvail], borrows := [] }

/-- An open borrow of `b1` with no stored `due_date` (legacy record). -/
def brNoDue : Borrow :=
  { brid := "r3", student_id := "s1", book_id := "b1"
    borrow_date := some 0, due_date := none, return_date := none, returned := false }

/-- State for the backfill round-trip: the single open borrow lacks a
stored `due_date`. -/
def c8DB : DB := { students := [stA], books := [bkUnavail], borrows := [brNoDue] }

/-- An open borrow whose stored `borrow_date` does not parse. -/
def brCorrupt : Borrow :=
  { brid := "r4", student_id := "s1", book_id := "b1"
    borrow_date := none, due_date := none, return_date := none, returned := false }

/-- State for the corrupt-borrow-date claim. -/
def c10DB : DB := { students := [stA], books := [bkUnavail], borrows := [brCorrupt] }

/-- Claim C7 (confirmed): for the same stored `borrow_date` parse result
and the same current time, `MongoRepo.return_book` and
`SQLiteRepo.return_book` make the same warning-increment decision and
compute the same backfilled due date, and the two `borrow_book`
implementations compute the same `due_date = now + 7 days`; the due-date
and overdue policy is the same pure function of `(borrow_date, now)` in
both backends. -/
theorem backend_policy_equal (parsed : Option Int) (now : Int) :
    mongo_warns parsed now = sqlite_warns parsed now ∧
    mongo_return_due parsed now = sqlite_return_due parsed now ∧
    mongo_borrow_due now = sqlite_borrow_due now :=
  ⟨rfl, rfl, rfl⟩

/-- Claim C9 (code_bug): the admission-code rule "exactly 6 characters" is
enforced by the Flask creation endpoint but not by the FastAPI `StudentIn`
model, which accepts any length from 1 to 50: the 5-character input
`"12345"` passes the FastAPI validation (the repository's own test suite
expects it to be rejected with a 422) while the Flask endpoint rejects it. -/
theorem admission_length_mismatch :
    server_admission_ok "12345" = true ∧
    "12345".length ≠ 6 ∧
    flask_admission_ok "12345" = false := by
  decide

/-- Claim C1 counterexample: the invariant as stated (availability iff no
open borrow, with nothing said about how many open borrows a book has)
is not preserved by a successful `return_book`: in `cex1DB` the single
book is unavailable and has two open borrows — the stated invariant holds
— but returning it marks only the first open borrow returned while
flipping the book back to available. -/
theorem avail_inv_not_preserved_by_return :
    avail_inv cex1DB ∧
    (return_book cex1DB "c1" 0).1 =
      .ok { brOpen1 with returned := true, return_date := some 0 } ∧
    ¬ avail_inv (return_book cex1DB "c1" 0).2 := by
  refine ⟨by decide, by decide, by decide⟩

/-! Reduction and bookkeeping lemmas shared by the claim theorems. -/

/-- Successful `borrow_book` fully reduced. -/
theorem borrow_book_ok (db : DB) (sid code : String) (now : Int) (nid : String) {s : Student}
    {b : Book} (hs : get_student db sid = some s) (hb : get_book_by_code db code = some b)
    (hav : b.available = true) :
    borrow_book db sid code now nid =
      (.ok (new_borrow s b now nid), after_borrow db b (new_borrow s b now nid)) := by
  unfold borrow_book
  rw [hs, hb]
  simp [hav]

/-- Successful `return_book` fully reduced. -/
theorem return_book_ok (db : DB) (code : String) (now : Int) {b : Book} {br : Borrow}
    (hb : get_book_by_code db code = some b) (hbr : find_open_borrow db b.bid = some br) :
    return_book db code now = (.ok (returned_borrow br now), after_return db b br now) := by
  unfold return_book
  simp only [hb, hbr]

/-- Rewriting every book with a code-preserving function commutes with the
code lookup. -/
theorem find_code_map (l : List Book) (code : String) (f : Book → Book)
    (hf : ∀ x, (f x).sbin = x.sbin ∧ (f x).stamp = x.stamp) :
    (l.map f).find? (fun b => b.sbin == some code || b.stamp == some code)
      = (l.find? (fun b => b.sbin == some code || b.stamp == some code)).map f := by
  induction l with
  | nil => rfl
  | cons a t ih =>
    have hpa : ((f a).sbin == some code || (f a).stamp == some code)
        = (a.sbin == some code || a.stamp == some code) := by
      rw [(hf a).1, (hf a).2]
    cases hc : (a.sbin == some code || a.stamp == some code) with
    | true => simp [List.find?_cons, hpa, hc]
    | false => simp [List.find?_cons, hpa, hc, ih]

/-- What `find_open_borrow` finding a record means. -/
theorem find_open_borrow_spec {db : DB} {bid : String} {br : Borrow}
    (h : find_open_borrow db bid = some br) :
    br ∈ db.borrows ∧ br.book_id = bid ∧ br.returned = false := by
  have hm := List.mem_of_find?_eq_some h
  have hp := List.find?_some h
  simp only [Bool.and_eq_true, beq_iff_eq, Bool.not_eq_true'] at hp
  exact ⟨hm, hp.1, hp.2⟩

/-- Membership in the open-borrow sublist. -/
theorem mem_open_only {l : List Borrow} {br : Borrow} :
    br ∈ open_only l ↔ br ∈ l ∧ br.returned = false := by
  simp [open_only, List.mem_filter]

/-- `open_only` distributes over append. -/
theorem open_only_append (l1 l2 : List Borrow) :
    open_only (l1 ++ l2) = open_only l1 ++ open_only l2 := by
  simp [open_only, List.filter_append]

/-- Marking one borrow id returned removes exactly that id from the open
sublist. -/
theorem open_only_map_mark (rid : String) (now : Int) (l : List Borrow) :
    open_only (l.map (mark_returned rid now))
      = (open_only l).filter (fun br => !(br.brid == rid)) := by
  induction l with
  | nil => rfl
  | cons a t ih =>
    cases hbr : a.brid == rid with
    | true =>
      cases hret : a.returned with
      | true => simpa [open_only, mark_returned, List.filter_cons, hbr, hret] using ih
      | false => simpa [open_only, mark_returned, List.filter_cons, hbr, hret] using ih
    | false =>
      cases hret : a.returned with
      | true => simpa [open_only, mark_returned, List.filter_cons, hbr, hret] using ih
      | false => simpa [open_only, mark_returned, List.filter_cons, hbr, hret] using ih

/-- The open-borrow check through the open sublist. -/
theorem any_open_alt (l : List Borrow) (bid : String) :
    l.any (fun br => br.book_id == bid && !br.returned)
      = (open_only l).any (fun br => br.book_id == bid) := by
  induction l with
  | nil => rfl
  | cons a t ih =>
    cases hret : a.returned <;>
      simp [open_only, List.filter_cons, List.any_cons, hret, ih]

/-- Two open borrows of the same book are the same record. -/
theorem open_same_book_eq {db : DB} (hA : at_most_one_open db) {x y : Borrow}
    (hx : x ∈ open_only db.borrows) (hy : y ∈ open_only db.borrows)
    (hxy : x.book_id = y.book_id) : x = y := by
  by_contra hne
  have hsym : Symmetric (fun a b : Borrow => a.book_id ≠ b.book_id) :=
    fun a b h he => h he.symm
  exact List.Pairwise.forall hsym hA hx hy hne hxy

/-- Borrow ids identify borrow records when the id index is respected. -/
theorem brid_eq_of_nodup {db : DB} (hW : borrow_ids_nodup db) {x y : Borrow}
    (hx : x ∈ db.borrows) (hy : y ∈ db.borrows) (h : x.brid = y.brid) : x = y :=
  List.inj_on_of_nodup_map hW hx hy h

/-- After marking the open borrow of `bid` returned, no open borrow of
`bid` remains. -/
theorem no_open_after_mark {db : DB} (hA : at_most_one_open db)
    {bid : String} {br : Borrow} (hbr : find_open_borrow db bid = some br) (now : Int) :
    (db.borrows.map (mark_returned br.brid now)).find?
      (fun x => x.book_id == bid && !x.returned) = none := by
  rw [List.find?_eq_none]
  intro x hx
  obtain ⟨y, hy, rfl⟩ := List.mem_map.mp hx
  obtain ⟨hmem, hbk, hret⟩ := find_open_borrow_spec hbr
  cases hb2 : y.brid == br.brid with
  | true => simp [mark_returned, hb2]
  | false =>
    have hmy : mark_returned br.brid now y = y := by
      unfold mark_returned
      simp [hb2]
    rw [hmy]
    simp only [Bool.and_eq_true, beq_iff_eq, Bool.not_eq_true', not_and]
    intro hybk hyret
    have hyopen : y ∈ open_only db.borrows := mem_open_only.mpr ⟨hy, hyret⟩
    have hbropen : br ∈ open_only db.borrows := mem_open_only.mpr ⟨hmem, hret⟩
    have heq : y = br := open_same_book_eq hA hyopen hbropen (by rw [hybk, hbk])
    rw [heq] at hb2
    simp at hb2

/-- The availability invariant only reads books and borrows. -/
theorem avail_inv_iff_of_eq {db1 db2 : DB} (hb : db1.books = db2.books)
    (hr : db1.borrows = db2.borrows) : avail_inv db1 ↔ avail_inv db2 := by
  unfold avail_inv has_open_for_book
  rw [hb, hr]

/-- The one-open-borrow invariant only reads borrows. -/
theorem at_most_one_open_iff_of_eq {db1 db2 : DB} (hr : db1.borrows = db2.borrows) :
    at_most_one_open db1 ↔ at_most_one_open db2 := by
  unfold at_most_one_open
  rw [hr]

/-- Marking a borrow returned does not change its due date. -/
theorem due_date_mark (rid : String) (now : Int) (y : Borrow) :
    (mark_returned rid now y).due_date = y.due_date := by
  unfold mark_returned
  split <;> rfl

/-- Elements of `insert_desc`. -/
theorem mem_insert_desc {a x : Borrow} {l : List Borrow} :
    x ∈ insert_desc a l ↔ x = a ∨ x ∈ l := by
  induction l with
  | nil => simp [insert_desc]
  | cons b t ih =>
    unfold insert_desc
    by_cases h : date_key b ≤ date_key a <;> simp [h, ih] <;> tauto

/-- Sorting preserves the elements. -/
theorem mem_sort_desc {x : Borrow} {l : List Borrow} : x ∈ sort_desc l ↔ x ∈ l := by
  induction l with
  | nil => simp [sort_desc]
  | cons a t ih => simp [sort_desc, mem_insert_desc, ih]

/-- The SQLite page is drawn from the sorted list. -/
theorem mem_sqlite_limit {x : Borrow} {limit : Int} {l : List Borrow}
    (h : x ∈ sqlite_limit limit l) : x ∈ l := by
  simp only [sqlite_limit] at h
  split at h
  · exact h
  · exact List.mem_of_mem_take h

/-- The MongoDB page is drawn from the sorted list. -/
theorem mem_mongo_limit {x : Borrow} {limit : Int} {l : List Borrow}
    (h : x ∈ mongo_limit limit l) : x ∈ l := by
  simp only [mongo_limit] at h
  split at h
  · exact h
  · exact List.mem_of_mem_take h

/-- Claim C5 counterexample: with 101 stored open borrows, the result
length is not "at most 100 regardless of the requested limit value" in
either backend — the code clamps with `min(limit, 100)`, which leaves a
non-positive requested limit unchanged, SQLite's `LIMIT -1` means
unlimited, and MongoDB's `limit(0)` means unlimited; moreover on the
document backend `ListBorrows` is not failure-free: `skip(-1)` raises. -/
theorem list_borrows_limit_not_clamped_below :
    ¬ ((sqlite_list_borrows cex5DB true (-1) 0).length ≤ 100) ∧
    mongo_list_borrows cex5DB true 0 0 = .ok (List.replicate 101 brOpen1) ∧
    ¬ ((List.replicate 101 brOpen1 : List Borrow).length ≤ 100) ∧
    mongo_list_borrows cex5DB true 50 (-1) = .error .invalidSkip := by
  refine ⟨by decide, by decide, by decide, by decide⟩

/-- Claim C6 (confirmed): `delete_student` and `delete_book` fail with the
active-borrow conflict exactly when some open borrow references the
entity — the conflict is checked first, so it takes precedence over
`NOT_FOUND` — otherwise they delete an existing id and answer `true`, fail
with `NOT_FOUND` for a missing id, and every failure leaves the store
unchanged. -/
theorem delete_contract (db : DB) (sid bid : String) :
    ((delete_student db sid).1 = .error .studentActiveBorrow ↔
        has_open_for_student db sid = true) ∧
    (has_open_for_student db sid = false → (∃ s ∈ db.students, s.sid = sid) →
        delete_student db sid =
          (.ok true, { db with students := db.students.filter (fun s => !(s.sid == sid)) })) ∧
    (has_open_for_student db sid = false → (∀ s ∈ db.students, s.sid ≠ sid) →
        delete_student db sid = (.error .notFound, db)) ∧
    (∀ e, (delete_student db sid).1 = .error e → (delete_student db sid).2 = db) ∧
    ((delete_book db bid).1 = .error .bookActiveBorrow ↔ has_open_for_book db bid = true) ∧
    (has_open_for_book db bid = false → (∃ b ∈ db.books, b.bid = bid) →
        delete_book db bid =
          (.ok true, { db with books := db.books.filter (fun b => !(b.bid == bid)) })) ∧
    (has_open_for_book db bid = false → (∀ b ∈ db.books, b.bid ≠ bid) →
        delete_book db bid = (.error .notFound, db)) ∧
    (∀ e, (delete_book db bid).1 = .error e → (delete_book db bid).2 = db) := by
  refine ⟨?_, ?_, ?_, ?_, ?_, ?_, ?_, ?_⟩
  · cases h1 : has_open_for_student db sid with
    | true => simp [delete_student, h1]
    | false =>
      cases h2 : db.students.any (fun s => s.sid == sid) with
      | true => simp [delete_student, h1, h2]
      | false => simp [delete_student, h1, h2]
  · intro h1 h2
    have h2' : (db.students.any fun s => s.sid == sid) = true := by
      simp only [List.any_eq_true, beq_iff_eq]
      exact h2
    simp [delete_student, h1, h2']
  · intro h1 h2
    have h2' : (db.students.any fun s => s.sid == sid) = false := by
      simp only [List.any_eq_false, beq_iff_eq]
      exact h2
    simp [delete_student, h1, h2']
  · intro e
    cases h1 : has_open_for_student db sid with
    | true => simp [delete_student, h1]
    | false =>
      cases h2 : db.students.any (fun s => s.sid == sid) with
      | true => simp [delete_student, h1, h2]
      | false => simp [delete_student, h1, h2]
  · cases h1 : has_open_for_book db bid with
    | true => simp [delete_book, h1]
    | false =>
      cases h2 : db.books.any (fun b => b.bid == bid) with
      | true => simp [delete_book, h1, h2]
      | false => simp [delete_book, h1, h2]
  · intro h1 h2
    have h2' : (db.books.any fun b => b.bid == bid) = true := by
      simp only [List.any_eq_true, beq_iff_eq]
      exact h2
    simp [delete_book, h1, h2']
  · intro h1 h2
    have h2' : (db.books.any fun b => b.bid == bid) = false := by
      simp only [List.any_eq_false, beq_iff_eq]
      exact h2
    simp [delete_book, h1, h2']
  · intro e
    cases h1 : has_open_for_book db bid with
    | true => simp [delete_book, h1]
    | false =>
      cases h2 : db.books.any (fun b => b.bid == bid) with
      | true => simp [delete_book, h1, h2]
      | false => simp [delete_book, h1, h2]

/-- Witness for `delete_contract`: on `cleanDB` student `s1` exists and has
no open borrow, so deletion succeeds, while the same call reports
`NOT_FOUND` for an unknown book id. -/
theorem delete_contract_witness :
    has_open_for_student cleanDB "s1" = false ∧ (∃ s ∈ cleanDB.students, s.sid = "s1") ∧
    delete_student cleanDB "s1" =
      (.ok true, { cleanDB with students := cleanDB.students.filter (fun s => !(s.sid == "s1")) }) :=
  ⟨by decide, by decide, (delete_contract cleanDB "s1" "zzz").2.1 (by decide) (by decide)⟩

/-- Claim C2 (confirmed): on a successful return, the student's warning
counter is incremented by exactly 1 iff the floor whole-day difference
between the stored `borrow_date` and `now` is strictly greater than 7;
returning at `borrow_date + 7 days 23 hours` leaves the counters
unchanged, and returning at `borrow_date + 8 days 1 hour` increments the
borrower's counter by exactly 1. -/
theorem return_warning_rule (db : DB) (code : String) (b : Book) (br : Borrow) (bd : Int)
    (hb : get_book_by_code db code = some b) (hbr : find_open_borrow db b.bid = some br)
    (hbd : br.borrow_date = some bd) :
    (∀ now : Int, (return_book db code now).2.students =
        (if Int.fdiv (now - bd) secondsPerDay > 7 then
          db.students.map (fun s =>
            if s.sid == br.student_id then { s with warnings := s.warnings + 1 } else s)
        else db.students)) ∧
    (return_book db code (bd + (7 * 86400 + 23 * 3600))).2.students = db.students ∧
    (return_book db code (bd + (8 * 86400 + 3600))).2.students =
      db.students.map (fun s =>
        if s.sid == br.student_id then { s with warnings := s.warnings + 1 } else s) := by
  have key : ∀ now : Int, (return_book db code now).2.students =
      (if Int.fdiv (now - bd) secondsPerDay > 7 then
        db.students.map (fun s =>
          if s.sid == br.student_id then { s with warnings := s.warnings + 1 } else s)
      else db.students) := by
    intro now
    rw [return_book_ok db code now hb hbr]
    simp [after_return, borrow_dt_of, hbd, elapsedDays]
  refine ⟨key, ?_, ?_⟩
  · rw [key]
    have h1 : bd + (7 * 86400 + 23 * 3600) - bd = ((7 * 86400 + 23 * 3600 : Int)) := by ring
    rw [h1, if_neg (by decide)]
  · rw [key]
    have h1 : bd + (8 * 86400 + 3600) - bd = ((8 * 86400 + 3600 : Int)) := by ring
    rw [h1, if_pos (by decide)]

/-- Witness for `return_warning_rule` on `cex1DB` (book `c1`, open borrow
`r1` with `borrow_date = 0`): a return 8 days and 1 hour later adds one
warning to student `s1`. -/
theorem return_warning_rule_witness :
    get_book_by_code cex1DB "c1" = some bkUnavail ∧
    find_open_borrow cex1DB "b1" = some brOpen1 ∧
    brOpen1.borrow_date = some 0 ∧
    (return_book cex1DB "c1" (0 + (8 * 86400 + 3600))).2.students =
      cex1DB.students.map (fun s =>
        if s.sid == brOpen1.student_id then { s with warnings := s.warnings + 1 } else s) :=
  ⟨by decide, by decide, by decide,
    (return_warning_rule cex1DB "c1" bkUnavail brOpen1 0 (by decide) (by decide) (by decide)).2.2⟩

/-- Claim C10 (confirmed): when the open borrow's stored `borrow_date` does
not parse, `return_book` still succeeds, the borrow time is silently
treated as `now` — so the warning counter is never incremented for that
return — and a missing `due_date` is backfilled to `now + 7 days` instead
of being derived from the true borrow date. -/
theorem corrupt_borrow_date_fallback (db : DB) (code : String) (now : Int) (b : Book)
    (br : Borrow) (hb : get_book_by_code db code = some b)
    (hbr : find_open_borrow db b.bid = some br) (hcorrupt : br.borrow_date = none) :
    (return_book db code now).1 = .ok (returned_borrow br now) ∧
    (br.due_date = none → (returned_borrow br now).due_date = some (now + sevenDays)) ∧
    (return_book db code now).2.students = db.students := by
  refine ⟨by rw [return_book_ok db code now hb hbr], ?_, ?_⟩
  · intro hdue
    simp [returned_borrow, hdue, borrow_dt_of, hcorrupt]
  · rw [return_book_ok db code now hb hbr]
    simp [after_return, borrow_dt_of, hcorrupt, elapsedDays]

/-- Witness for `corrupt_borrow_date_fallback` on `c10DB`, whose single
open borrow has an unparseable `borrow_date` and no stored `due_date`. -/
theorem corrupt_borrow_date_fallback_witness :
    get_book_by_code c10DB "c1" = some bkUnavail ∧
    find_open_borrow c10DB "b1" = some brCorrupt ∧
    brCorrupt.borrow_date = none ∧
    (return_book c10DB "c1" 50).2.students = c10DB.students :=
  ⟨by decide, by decide, by decide,
    (corrupt_borrow_date_fallback c10DB "c1" 50 bkUnavail brCorrupt
      (by decide) (by decide) (by decide)).2.2⟩

/-- Claim C8 (confirmed): a stored borrow with no `due_date` but a valid
`borrow_date` is served with `due_date = borrow_date + 7 days` both by the
read-side backfill of the list operation of either backend (whose outputs
are the stored records through `backfill_due`) and by `return_book`, and
the stored records' due dates are not rewritten. -/
theorem due_backfill_roundtrip (db : DB) (code : String) (now bd : Int) (b : Book)
    (br : Borrow) (hb : get_book_by_code db code = some b)
    (hbr : find_open_borrow db b.bid = some br) (hdue : br.due_date = none)
    (hbd : br.borrow_date = some bd) :
    backfill_due br = { br with due_date := some (bd + sevenDays) } ∧
    (∀ active : Bool, ∀ limit skip : Int, ∀ x ∈ sqlite_list_borrows db active limit skip,
        ∃ y ∈ db.borrows, x = backfill_due y) ∧
    (∀ active : Bool, ∀ limit skip : Int, ∀ l,
        mongo_list_borrows db active limit skip = .ok l →
        ∀ x ∈ l, ∃ y ∈ db.borrows, x = backfill_due y) ∧
    (return_book db code now).1 = .ok (returned_borrow br now) ∧
    (returned_borrow br now).due_date = some (bd + sevenDays) ∧
    (return_book db code now).2.borrows.map Borrow.due_date
      = db.borrows.map Borrow.due_date := by
  have hbase : ∀ active : Bool, ∀ y : Borrow,
      y ∈ (if active then open_only db.borrows else db.borrows) → y ∈ db.borrows := by
    intro active y hy
    cases active with
    | true => exact (mem_open_only.mp (by simpa using hy)).1
    | false => simpa using hy
  refine ⟨by simp [backfill_due, hdue, hbd], ?_, ?_,
    by rw [return_book_ok db code now hb hbr],
    by simp [returned_borrow, hdue, borrow_dt_of, hbd], ?_⟩
  · intro active limit skip x hx
    simp only [sqlite_list_borrows, List.mem_map] at hx
    obtain ⟨y, hy, rfl⟩ := hx
    have hy2 := mem_sqlite_limit hy
    have hy3 : y ∈ sort_desc (if active then open_only db.borrows else db.borrows) :=
      List.mem_of_mem_drop hy2
    exact ⟨y, hbase active y (mem_sort_desc.mp hy3), rfl⟩
  · intro active limit skip l hl x hx
    simp only [mongo_list_borrows] at hl
    by_cases hskip : skip < 0
    · rw [if_pos hskip] at hl
      cases hl
    · rw [if_neg hskip] at hl
      injection hl with hl
      subst hl
      obtain ⟨y, hy, rfl⟩ := List.mem_map.mp hx
      have hy2 := mem_mongo_limit hy
      have hy3 : y ∈ sort_desc (if active then open_only db.borrows else db.borrows) :=
        List.mem_of_mem_drop hy2
      exact ⟨y, hbase active y (mem_sort_desc.mp hy3), rfl⟩
  · rw [return_book_ok db code now hb hbr]
    simp only [after_return, List.map_map]
    apply List.map_congr_left
    intro a _
    simp [Function.comp, due_date_mark]

/-- Witness for `due_backfill_roundtrip` on `c8DB`, whose single open
borrow has `borrow_date = 0` and no stored `due_date`. -/
theorem due_backfill_roundtrip_witness :
    get_book_by_code c8DB "c1" = some bkUnavail ∧
    find_open_borrow c8DB "b1" = some brNoDue ∧
    brNoDue.due_date = none ∧
    brNoDue.borrow_date = some 0 ∧
    backfill_due brNoDue = { brNoDue with due_date := some (0 + sevenDays) } :=
  ⟨by decide, by decide, by decide, by decide,
    (due_backfill_roundtrip c8DB "c1" 9 0 bkUnavail brNoDue
      (by decide) (by decide) (by decide) (by decide)).1⟩

/-- Claim C3 (confirmed): `borrow_book` fails with the student `NOT_FOUND`
exactly when the student id resolves to nothing; with the book `NOT_FOUND`
exactly when the student exists but no book carries the code as `sbin` or
`stamp`; with the availability conflict exactly when both resolve but the
book is unavailable; every failure leaves the store unchanged; and on
success it returns a fresh borrow with `borrow_date = now`,
`due_date = now + 7 days`, `returned = false`, referencing the resolved
student and book, flips that book to unavailable, and a second borrow of
the same code then fails with the availability conflict. -/
theorem borrow_book_contract (db : DB) (sid code : String) (now : Int) (nid : String) :
    ((borrow_book db sid code now nid).1 = .error .notFoundStudent ↔
        get_student db sid = none) ∧
    ((borrow_book db sid code now nid).1 = .error .notFoundBook ↔
        (get_student db sid).isSome = true ∧ get_book_by_code db code = none) ∧
    ((borrow_book db sid code now nid).1 = .error .bookNotAvailable ↔
        (get_student db sid).isSome = true ∧
          ∃ b, get_book_by_code db code = some b ∧ b.available = false) ∧
    (∀ e, (borrow_book db sid code now nid).1 = .error e →
        (borrow_book db sid code now nid).2 = db) ∧
    (∀ r db', borrow_book db sid code now nid = (.ok r, db') →
        ∃ s b, get_student db sid = some s ∧ get_book_by_code db code = some b ∧
          b.available = true ∧ r = new_borrow s b now nid ∧
          r.brid = nid ∧ r.student_id = s.sid ∧ r.book_id = b.bid ∧
          r.borrow_date = some now ∧ r.due_date = some (now + sevenDays) ∧
          r.returned = false ∧ r.return_date = none ∧
          db'.borrows = db.borrows ++ [r] ∧ db'.students = db.students ∧
          (∀ b' ∈ db'.books, b'.bid = b.bid → b'.available = false) ∧
          (∀ sid2 : String, ∀ now2 : Int, ∀ nid2 : String,
              (get_student db' sid2).isSome = true →
              (borrow_book db' sid2 code now2 nid2).1 = .error .bookNotAvailable)) := by
  cases hs : get_student db sid with
  | none => simp [borrow_book, hs]
  | some s =>
    cases hbk : get_book_by_code db code with
    | none => simp [borrow_book, hs, hbk]
    | some b =>
      cases hav : b.available with
      | false => simp [borrow_book, hs, hbk, hav]
      | true =>
        have hred := borrow_book_ok db sid code now nid hs hbk hav
        rw [hred]
        refine ⟨by simp [hs], by simp [hbk], ?_, by simp, ?_⟩
        · constructor
          · intro h
            cases h
          · rintro ⟨-, b', hb', hb'av⟩
            injection hb' with hb'
            subst hb'
            rw [hav] at hb'av
            cases hb'av
        · intro r db' heq
          injection heq with h1 h2
          injection h1 with h1
          subst h1
          subst h2
          refine ⟨s, b, rfl, rfl, hav, rfl, rfl, rfl, rfl, rfl, rfl, rfl, rfl, rfl, rfl,
            ?_, ?_⟩
          · intro b' hb' hbid
            obtain ⟨x, hx, rfl⟩ := List.mem_map.mp hb'
            by_cases hxb : x.bid == b.bid
            · simp [hxb]
            · simp only [hxb, Bool.false_eq_true, if_false] at hbid ⊢
              exact absurd hbid (by simpa using hxb)
          · intro sid2 now2 nid2 hs2
            obtain ⟨s2, hs2'⟩ := Option.isSome_iff_exists.mp hs2
            have hbk2 : get_book_by_code (after_borrow db b (new_borrow s b now nid)) code
                = some { b with available := false } := by
              unfold get_book_by_code after_borrow
              rw [find_code_map _ _ _
                (fun x => by by_cases h : x.bid == b.bid <;> simp [h])]
              unfold get_book_by_code at hbk
              rw [hbk]
              simp
            unfold borrow_book
            simp [hs2', hbk2]

/-- Witness for `borrow_book_contract`: on `cleanDB` the id `"zz"` resolves
to no student, and borrowing with it fails with the student `NOT_FOUND`. -/
theorem borrow_book_contract_witness :
    get_student cleanDB "zz" = none ∧
    (borrow_book cleanDB "zz" "c2" 5 "rX").1 = .error .notFoundStudent :=
  ⟨by decide, ((borrow_book_contract cleanDB "zz" "c2" 5 "rX").1).mpr (by decide)⟩

/-- Claim C4 (confirmed, under the at-most-one-open-borrow part of the
ledger invariant, which makes "the single open Borrow" well defined):
`return_book` fails with the book `NOT_FOUND` exactly when the code
resolves to no book, with the no-active-borrow conflict exactly when the
resolved book has no open borrow, every failure leaves the store
unchanged, and on success it marks the open borrow returned with
`return_date = now`, flips the book back to available, serves the updated
record, leaves no open borrow on that book, and a second consecutive
return of the same code fails with the no-active-borrow conflict. -/
theorem return_book_contract (db : DB) (code : String) (now now2 : Int)
    (hA : at_most_one_open db) :
    ((return_book db code now).1 = .error .notFoundBook ↔
        get_book_by_code db code = none) ∧
    ((return_book db code now).1 = .error .noActiveBorrow ↔
        ∃ b, get_book_by_code db code = some b ∧ find_open_borrow db b.bid = none) ∧
    (∀ e, (return_book db code now).1 = .error e → (return_book db code now).2 = db) ∧
    (∀ r db', return_book db code now = (.ok r, db') →
        ∃ b br, get_book_by_code db code = some b ∧ find_open_borrow db b.bid = some br ∧
          br.returned = false ∧ r = returned_borrow br now ∧
          r.brid = br.brid ∧ r.returned = true ∧ r.return_date = some now ∧
          db'.borrows = db.borrows.map (mark_returned br.brid now) ∧
          (∀ b' ∈ db'.books, b'.bid = b.bid → b'.available = true) ∧
          (∀ x ∈ db'.borrows, x.book_id = b.bid → x.returned = true) ∧
          (return_book db' code now2).1 = .error .noActiveBorrow) := by
  cases hbk : get_book_by_code db code with
  | none => simp [return_book, hbk]
  | some b =>
    cases hbr : find_open_borrow db b.bid with
    | none => simp [return_book, hbk, hbr]
    | some br =>
      have hred := return_book_ok db code now hbk hbr
      rw [hred]
      refine ⟨by simp, ?_, by simp, ?_⟩
      · constructor
        · intro h
          cases h
        · rintro ⟨b', hb', hb'no⟩
          injection hb' with hb'
          subst hb'
          rw [hbr] at hb'no
          cases hb'no
      · intro r db' heq
        injection heq with h1 h2
        injection h1 with h1
        subst h1
        subst h2
        obtain ⟨hbrmem, hbrbk, hbrret⟩ := find_open_borrow_spec hbr
        refine ⟨b, br, rfl, hbr, hbrret, rfl, rfl, rfl, rfl, rfl, ?_, ?_, ?_⟩
        · intro b' hb' hbid
          obtain ⟨x, hx, rfl⟩ := List.mem_map.mp hb'
          by_cases hxb : x.bid == b.bid
          · simp [hxb]
          · simp only [hxb, Bool.false_eq_true, if_false] at hbid ⊢
            exact absurd hbid (by simpa using hxb)
        · intro x hx hxbk
          have hall := List.find?_eq_none.mp (no_open_after_mark hA hbr now) x hx
          simp only [Bool.and_eq_true, beq_iff_eq, Bool.not_eq_true', not_and] at hall
          have h2 := hall hxbk
          cases hxr : x.returned with
          | true => rfl
          | false => exact absurd hxr h2
        · have hbk2 : get_book_by_code (after_return db b br now) code
              = some { b with available := true } := by
            unfold get_book_by_code after_return
            rw [find_code_map _ _ _
              (fun x => by by_cases h : x.bid == b.bid <;> simp [h])]
            unfold get_book_by_code at hbk
            rw [hbk]
            simp
          have hno2 : find_open_borrow (after_return db b br now) b.bid = none := by
            show (db.borrows.map (mark_returned br.brid now)).find?
              (fun x => x.book_id == b.bid && !x.returned) = none
            exact no_open_after_mark hA hbr now
          unfold return_book
          simp [hbk2, hno2]

/-- Witness for `return_book_contract`: on `c8DB` (one open borrow of book
`c1`) the return succeeds and serves the marked record. -/
theorem return_book_contract_witness :
    at_most_one_open c8DB ∧
    ((return_book c8DB "zzz" 3).1 = .error .notFoundBook ↔
      get_book_by_code c8DB "zzz" = none) :=
  ⟨by decide, (return_book_contract c8DB "zzz" 3 4 (by decide)).1⟩

/-- A successful borrow keeps the strengthened ledger invariant. -/
theorem ledger_inv_after_borrow {db : DB} (hI : ledger_inv db) {s : Student} {b : Book}
    (hmem : b ∈ db.books) (hav : b.available = true) (now : Int) (nid : String) :
    ledger_inv (after_borrow db b (new_borrow s b now nid)) := by
  obtain ⟨hAv, hA1⟩ := hI
  have hnoopen : has_open_for_book db b.bid = false := by
    have h0 := hAv b hmem
    rw [hav] at h0
    cases h : has_open_for_book db b.bid with
    | false => rfl
    | true => rw [h] at h0; cases h0
  have hopen' : ∀ y : String,
      has_open_for_book (after_borrow db b (new_borrow s b now nid)) y
        = (has_open_for_book db y || (b.bid == y)) := by
    intro y
    show (db.borrows ++ [new_borrow s b now nid]).any _ = _
    rw [List.any_append]
    simp only [List.any_cons, List.any_nil, new_borrow, Bool.not_false, Bool.and_true,
      Bool.or_false]
    rfl
  constructor
  · intro b' hb'
    obtain ⟨x, hx, rfl⟩ := List.mem_map.mp hb'
    by_cases hxb : x.bid == b.bid
    · have hxbid : x.bid = b.bid := by simpa using hxb
      simp only [hxb, if_true]
      show false = !has_open_for_book (after_borrow db b (new_borrow s b now nid)) x.bid
      rw [hopen' x.bid, hxbid, hnoopen]
      simp
    · simp only [hxb, Bool.false_eq_true, if_false]
      rw [hopen' x.bid]
      have hbx : (b.bid == x.bid) = false := by
        simp only [beq_eq_false_iff_ne, ne_eq]
        intro hc
        exact absurd hc.symm (by simpa using hxb)
      rw [hbx, Bool.or_false]
      exact hAv x hx
  · show (open_only (db.borrows ++ [new_borrow s b now nid])).Pairwise
      (fun a c => a.book_id ≠ c.book_id)
    rw [open_only_append]
    have hdoc : open_only [new_borrow s b now nid] = [new_borrow s b now nid] := by
      simp [open_only, new_borrow]
    rw [hdoc, List.pairwise_append]
    refine ⟨hA1, by simp, ?_⟩
    intro a ha c hc
    simp only [List.mem_singleton] at hc
    subst hc
    show a.book_id ≠ b.bid
    obtain ⟨hamem, haret⟩ := mem_open_only.mp ha
    intro hcontra
    have : has_open_for_book db b.bid = true := by
      unfold has_open_for_book
      rw [List.any_eq_true]
      exact ⟨a, hamem, by simp [hcontra, haret]⟩
    rw [this] at hnoopen
    cases hnoopen

/-- A successful return keeps the strengthened ledger invariant (the
distinct-borrow-ids index is needed: marking by borrow id must not close
an open borrow of a different book). -/
theorem ledger_inv_after_return {db : DB} (hW : borrow_ids_nodup db) (hI : ledger_inv db)
    {b : Book} {br : Borrow} (hbr : find_open_borrow db b.bid = some br) (now : Int) :
    ledger_inv (after_return db b br now) := by
  obtain ⟨hAv, hA1⟩ := hI
  obtain ⟨hbrmem, hbrbk, hbrret⟩ := find_open_borrow_spec hbr
  have hopen' : ∀ y : String,
      has_open_for_book (after_return db b br now) y
        = ((open_only db.borrows).filter (fun z => !(z.brid == br.brid))).any
            (fun z => z.book_id == y) := by
    intro y
    show (db.borrows.map (mark_returned br.brid now)).any _ = _
    rw [any_open_alt, open_only_map_mark]
  constructor
  · intro b' hb'
    obtain ⟨x, hx, rfl⟩ := List.mem_map.mp hb'
    by_cases hxb : x.bid == b.bid
    · have hxbid : x.bid = b.bid := by simpa using hxb
      have hnone : has_open_for_book (after_return db b br now) b.bid = false := by
        show (db.borrows.map (mark_returned br.brid now)).any
          (fun z => z.book_id == b.bid && !z.returned) = false
        rw [List.any_eq_false]
        exact List.find?_eq_none.mp (no_open_after_mark hA1 hbr now)
      simp only [hxb, if_true]
      show true = !has_open_for_book (after_return db b br now) x.bid
      rw [hxbid, hnone]
      rfl
    · have hxbid : x.bid ≠ b.bid := by simpa using hxb
      have heq : has_open_for_book (after_return db b br now) x.bid
          = has_open_for_book db x.bid := by
        rw [hopen' x.bid, has_open_for_book, any_open_alt]
        rw [Bool.eq_iff_iff]
        constructor
        · intro h
          rw [List.any_eq_true] at h ⊢
          obtain ⟨z, hz, hzp⟩ := h
          exact ⟨z, List.mem_of_mem_filter hz, hzp⟩
        · intro h
          rw [List.any_eq_true] at h ⊢
          obtain ⟨z, hz, hzp⟩ := h
          have hzbk : z.book_id = x.bid := by simpa using hzp
          have hzbrid : (z.brid == br.brid) = false := by
            simp only [beq_eq_false_iff_ne, ne_eq]
            intro hc
            have hzmem : z ∈ db.borrows := (mem_open_only.mp hz).1
            have : z = br := brid_eq_of_nodup hW hzmem hbrmem hc
            rw [this] at hzbk
            rw [hbrbk] at hzbk
            exact hxbid hzbk.symm
          exact ⟨z, List.mem_filter.mpr ⟨hz, by simp [hzbrid]⟩, hzp⟩
      simp only [hxb, Bool.false_eq_true, if_false]
      rw [heq]
      exact hAv x hx
  · show (open_only (db.borrows.map (mark_returned br.brid now))).Pairwise
      (fun a c => a.book_id ≠ c.book_id)
    rw [open_only_map_mark]
    exact hA1.sublist (List.filter_sublist _)

/-- Deleting a student cannot break the ledger invariant (it reads only
books and borrows). -/
theorem ledger_inv_delete_student {db : DB} (hI : ledger_inv db) (sid : String) :
    ledger_inv { db with students := db.students.filter (fun s => !(s.sid == sid)) } :=
  hI

/-- Deleting a book keeps the ledger invariant: the surviving books are a
sublist with unchanged availability, over unchanged borrows. -/
theorem ledger_inv_delete_book {db : DB} (hI : ledger_inv db) (bid : String) :
    ledger_inv { db with books := db.books.filter (fun b => !(b.bid == bid)) } := by
  obtain ⟨hAv, hA1⟩ := hI
  refine ⟨?_, hA1⟩
  intro b hb
  exact hAv b (List.mem_of_mem_filter hb)

/-- Claim C1 (corrected, amended): with the invariant strengthened to also
require at most one open borrow per book — the companion clause the spec
states alongside the iff — every state satisfying it whose borrow ids are
pairwise distinct (the stores' unique `borrows.id` index) keeps satisfying
it after every successful borrow, return, student deletion and book
deletion; the list operations perform no writes. -/
theorem ledger_inv_preserved (db : DB) (hW : borrow_ids_nodup db) (hI : ledger_inv db) :
    (∀ sid code : String, ∀ now : Int, ∀ nid : String, ∀ r db',
        borrow_book db sid code now nid = (.ok r, db') → ledger_inv db') ∧
    (∀ code : String, ∀ now : Int, ∀ r db',
        return_book db code now = (.ok r, db') → ledger_inv db') ∧
    (∀ sid : String, ∀ r db', delete_student db sid = (.ok r, db') → ledger_inv db') ∧
    (∀ bid : String, ∀ r db', delete_book db bid = (.ok r, db') → ledger_inv db') := by
  refine ⟨?_, ?_, ?_, ?_⟩
  · intro sid code now nid r db' h
    unfold borrow_book at h
    cases hs : get_student db sid with
    | none => simp [hs] at h
    | some s =>
      cases hbk : get_book_by_code db code with
      | none => simp [hs, hbk] at h
      | some b =>
        cases hav : b.available with
        | false => simp [hs, hbk, hav] at h
        | true =>
          simp only [hs, hbk, hav, Bool.not_true, Bool.false_eq_true, if_false,
            Prod.mk.injEq, Except.ok.injEq] at h
          obtain ⟨-, h2⟩ := h
          subst h2
          exact ledger_inv_after_borrow ⟨hI.1, hI.2⟩ (List.mem_of_find?_eq_some hbk) hav now nid
  · intro code now r db' h
    unfold return_book at h
    cases hbk : get_book_by_code db code with
    | none => simp [hbk] at h
    | some b =>
      cases hbr : find_open_borrow db b.bid with
      | none => simp [hbk, hbr] at h
      | some br =>
        simp only [hbk, hbr, Prod.mk.injEq, Except.ok.injEq] at h
        obtain ⟨-, h2⟩ := h
        subst h2
        exact ledger_inv_after_return hW ⟨hI.1, hI.2⟩ hbr now
  · intro sid r db' h
    unfold delete_student at h
    cases h1 : has_open_for_student db sid with
    | true => simp [h1] at h
    | false =>
      cases h2 : db.students.any (fun st => st.sid == sid) with
      | true =>
        simp only [h1, h2, Bool.false_eq_true, if_false, if_true, Prod.mk.injEq,
          Except.ok.injEq] at h
        obtain ⟨-, h3⟩ := h
        subst h3
        exact ledger_inv_delete_student ⟨hI.1, hI.2⟩ sid
      | false => simp [h1, h2] at h
  · intro bid r db' h
    unfold delete_book at h
    cases h1 : has_open_for_book db bid with
    | true => simp [h1] at h
    | false =>
      cases h2 : db.books.any (fun bk => bk.bid == bid) with
      | true =>
        simp only [h1, h2, Bool.false_eq_true, if_false, if_true, Prod.mk.injEq,
          Except.ok.injEq] at h
        obtain ⟨-, h3⟩ := h
        subst h3
        exact ledger_inv_delete_book ⟨hI.1, hI.2⟩ bid
      | false => simp [h1, h2] at h

/-- Witness for `ledger_inv_preserved`: `cleanDB` satisfies the invariants
and the preservation statement applies to a concrete successful borrow. -/
theorem ledger_inv_preserved_witness :
    borrow_ids_nodup cleanDB ∧ ledger_inv cleanDB ∧
    (∀ r db', borrow_book cleanDB "s1" "c2" 5 "rX" = (.ok r, db') → ledger_inv db') :=
  ⟨by decide, by decide,
    fun r db' h =>
      (ledger_inv_preserved cleanDB (by decide) (by decide)).1 "s1" "c2" 5 "rX" r db' h⟩

/-- Inserting into a descending-sorted list keeps it descending-sorted. -/
theorem pairwise_insert_desc {a : Borrow} {l : List Borrow}
    (h : l.Pairwise (fun x y => date_key y ≤ date_key x)) :
    (insert_desc a l).Pairwise (fun x y => date_key y ≤ date_key x) := by
  induction l with
  | nil => simp [insert_desc]
  | cons b t ih =>
    obtain ⟨hb, ht⟩ := List.pairwise_cons.mp h
    unfold insert_desc
    by_cases hba : date_key b ≤ date_key a
    · rw [if_pos hba]
      rw [List.pairwise_cons]
      refine ⟨?_, h⟩
      intro y hy
      rcases List.mem_cons.mp hy with rfl | hy
      · exact hba
      · exact le_trans (hb y hy) hba
    · rw [if_neg hba]
      rw [List.pairwise_cons]
      refine ⟨?_, ih ht⟩
      intro y hy
      rcases mem_insert_desc.mp hy with rfl | hy
      · exact le_of_lt (lt_of_not_le hba)
      · exact hb y hy

/-- The insertion sort produces a descending-sorted list. -/
theorem pairwise_sort_desc (l : List Borrow) :
    (sort_desc l).Pairwise (fun x y => date_key y ≤ date_key x) := by
  induction l with
  | nil => simp [sort_desc]
  | cons a t ih => exact pairwise_insert_desc ih

/-- The backfill does not change the sort key. -/
theorem date_key_backfill (br : Borrow) : date_key (backfill_due br) = date_key br := by
  unfold backfill_due
  cases hd : br.due_date with
  | none =>
    cases hb : br.borrow_date with
    | none => rfl
    | some t => simp [date_key, hb]
  | some d => rfl

/-- The backfill does not change the returned flag. -/
theorem returned_backfill (br : Borrow) : (backfill_due br).returned = br.returned := by
  unfold backfill_due
  cases hd : br.due_date with
  | none =>
    cases hb : br.borrow_date with
    | none => rfl
    | some t => rfl
  | some d => rfl

/-- The SQLite page is a sublist of the sorted rows. -/
theorem sqlite_limit_sublist (limit : Int) (l : List Borrow) :
    (sqlite_limit limit l).Sublist l := by
  simp only [sqlite_limit]
  split
  · exact List.Sublist.refl l
  · exact List.take_sublist _ _

/-- The MongoDB page is a sublist of the sorted rows. -/
theorem mongo_limit_sublist (limit : Int) (l : List Borrow) :
    (mongo_limit limit l).Sublist l := by
  simp only [mongo_limit]
  split
  · exact List.Sublist.refl l
  · exact List.take_sublist _ _

/-- Claim C5 (corrected, amended), covering both cited backends.  The
relational backend never fails; the document backend never fails for
`skip ≥ 0` (pymongo's `skip` raises on a negative argument).  In either
backend, with `active = true` every returned record is an open borrow,
and the result is ordered by the `borrow_date` key descending, with
`skip` offsetting into the ordered sequence before the limit truncates.
The 100-entry cap holds on the relational backend for every requested
`limit ≥ 0` and on the document backend for every requested `limit ≥ 1`
(where both equal the sorted rows offset by `skip` and truncated to
`min(limit, 100)`).  The original "at most 100 regardless of the
requested limit" fails: `min(limit, 100)` leaves a non-positive limit
unchanged, SQLite's negative `LIMIT` means unlimited, and MongoDB's
`limit(0)` means unlimited. -/
theorem list_borrows_contract (db : DB) (active : Bool) (limit skip : Int) :
    (0 ≤ limit → (sqlite_list_borrows db active limit skip).length ≤ 100) ∧
    (active = true → ∀ x ∈ sqlite_list_borrows db active limit skip, x.returned = false) ∧
    (sqlite_list_borrows db active limit skip).Pairwise
      (fun x y => date_key y ≤ date_key x) ∧
    (0 ≤ limit → sqlite_list_borrows db active limit skip =
      (((sort_desc (if active then open_only db.borrows else db.borrows)).drop
          skip.toNat).take (min limit 100).toNat).map backfill_due) ∧
    (0 ≤ skip → ∃ l, mongo_list_borrows db active limit skip = .ok l) ∧
    (∀ l, mongo_list_borrows db active limit skip = .ok l →
        (1 ≤ limit → l.length ≤ 100) ∧
        (active = true → ∀ x ∈ l, x.returned = false) ∧
        l.Pairwise (fun x y => date_key y ≤ date_key x) ∧
        (1 ≤ limit → l =
          (((sort_desc (if active then open_only db.borrows else db.borrows)).drop
              skip.toNat).take (min limit 100).toNat).map backfill_due)) := by
  have hpipe : 0 ≤ limit → sqlite_list_borrows db active limit skip =
      (((sort_desc (if active then open_only db.borrows else db.borrows)).drop
          skip.toNat).take (min limit 100).toNat).map backfill_due := by
    intro hlim
    simp only [sqlite_list_borrows, sqlite_limit]
    rw [if_neg (by omega)]
  have hopen : active = true →
      ∀ y ∈ sort_desc (if active then open_only db.borrows else db.borrows),
        y.returned = false := by
    intro ha y hy
    subst ha
    exact (mem_open_only.mp (mem_sort_desc.mp (by simpa using hy))).2
  have hsorted : ((sort_desc (if active then open_only db.borrows else db.borrows)).drop
      skip.toNat).Pairwise (fun x y => date_key y ≤ date_key x) :=
    (pairwise_sort_desc _).sublist (List.drop_sublist _ _)
  refine ⟨?_, ?_, ?_, hpipe, ?_, ?_⟩
  · intro hlim
    rw [hpipe hlim, List.length_map]
    have h1 : (((sort_desc (if active then open_only db.borrows else db.borrows)).drop
        skip.toNat).take (min limit 100).toNat).length ≤ (min limit 100).toNat := by
      rw [List.length_take]
      exact Nat.min_le_left _ _
    have h2 : (min limit 100).toNat ≤ 100 := by omega
    omega
  · intro ha x hx
    simp only [sqlite_list_borrows, List.mem_map] at hx
    obtain ⟨y, hy, rfl⟩ := hx
    rw [returned_backfill]
    exact hopen ha y (List.mem_of_mem_drop (mem_sqlite_limit hy))
  · simp only [sqlite_list_borrows]
    apply List.pairwise_map.mpr
    have hp2 := hsorted.sublist (sqlite_limit_sublist limit _)
    exact hp2.imp (fun h => by rw [date_key_backfill, date_key_backfill]; exact h)
  · intro hskip
    refine ⟨(mongo_limit limit ((sort_desc (if active then open_only db.borrows
      else db.borrows)).drop skip.toNat)).map backfill_due, ?_⟩
    simp only [mongo_list_borrows]
    rw [if_neg (by omega)]
  · intro l hl
    simp only [mongo_list_borrows] at hl
    by_cases hskip : skip < 0
    · rw [if_pos hskip] at hl
      cases hl
    · rw [if_neg hskip] at hl
      injection hl with hl
      subst hl
      refine ⟨?_, ?_, ?_, ?_⟩
      · intro hlim
        rw [List.length_map]
        simp only [mongo_limit]
        rw [if_neg (by omega)]
        rw [List.length_take]
        have h1 : (min limit 100).natAbs ≤ 100 := by omega
        have h2 := Nat.min_le_left (min limit 100).natAbs
          (((sort_desc (if active then open_only db.borrows else db.borrows)).drop
            skip.toNat).length)
        omega
      · intro ha x hx
        obtain ⟨y, hy, rfl⟩ := List.mem_map.mp hx
        rw [returned_backfill]
        exact hopen ha y (List.mem_of_mem_drop (mem_mongo_limit hy))
      · apply List.pairwise_map.mpr
        have hp2 := hsorted.sublist (mongo_limit_sublist limit _)
        exact hp2.imp (fun h => by rw [date_key_backfill, date_key_backfill]; exact h)
      · intro hlim
        simp only [mongo_limit]
        rw [if_neg (by omega)]
        have habs : (min limit 100).natAbs = (min limit 100).toNat := by omega
        rw [habs]

/-- Witness for `list_borrows_contract`: with the non-negative requested
limit 2 and skip 0, the page over the 101 stored borrows is capped in the
relational backend and the document backend succeeds. -/
theorem list_borrows_contract_witness :
    (0 : Int) ≤ 2 ∧ (sqlite_list_borrows cex5DB true 2 0).length ≤ 100 ∧
    (0 : Int) ≤ 0 ∧ (∃ l, mongo_list_borrows cex5DB true 2 0 = .ok l) :=
  ⟨by decide, (list_borrows_contract cex5DB true 2 0).1 (by decide), by decide,
    (list_borrows_contract cex5DB true 2 0).2.2.2.2.1 (by decide)⟩

end LibManager
